import Mathlib

/-!
Verification of the spectral-transform engine (src/spectral/transforms.py)
against its natural-language specification.

Arrays are modelled as flat lists of exact rationals (one entry per pixel);
an `NDArray` carries the values together with a dtype tag.  The dtype tag
distinguishes only integer-like dtypes (where `astype` truncates toward
zero, as numpy's float-to-int cast does) from float-like dtypes (where the
cast is the identity); machine width and floating-point rounding are not
modelled.  Division by zero follows the rational convention `x / 0 = 0`.
-/

/-- Dtype tag of a numpy array: integer dtypes truncate on `astype`,
float dtypes are modelled exactly (identity cast). -/
inductive Dtype
  | intLike
  | floatLike
  deriving DecidableEq, Repr

/-- Truncation toward zero, the semantics of numpy's float-to-int cast. -/
def ratTruncTowardZero (q : ℚ) : ℚ :=
  if 0 ≤ q then (⌊q⌋ : ℚ) else (⌈q⌉ : ℚ)

/-- `astype` applied to one element. -/
def castQ : Dtype → ℚ → ℚ
  | Dtype.intLike, q => ratTruncTowardZero q
  | Dtype.floatLike, q => q

/-- A numpy array: a dtype tag and the flat list of pixel values. -/
structure NDArray where
  dtype : Dtype
  vals : List ℚ
  deriving DecidableEq, Repr

/-- Elementwise combination of three same-shape arrays (numexpr evaluate). -/
def zipWith3Q (f : ℚ → ℚ → ℚ → ℚ) : List ℚ → List ℚ → List ℚ → List ℚ
  | a :: as, b :: bs, c :: cs => f a b c :: zipWith3Q f as bs cs
  | _, _, _ => []

/-- Elementwise combination of six same-shape arrays (numexpr evaluate). -/
def zipWith6Q (f : ℚ → ℚ → ℚ → ℚ → ℚ → ℚ → ℚ) :
    List ℚ → List ℚ → List ℚ → List ℚ → List ℚ → List ℚ → List ℚ
  | a :: as, b :: bs, c :: cs, d :: ds, e :: es, g :: gs =>
      f a b c d e g :: zipWith6Q f as bs cs ds es gs
  | _, _, _, _, _, _ => []

/-- The band roles of the source (blue, green, red, nir, swir1, swir2). -/
inductive Role
  | blue
  | green
  | red
  | nir
  | swir1
  | swir2
  deriving DecidableEq, Repr

/-- `bgw_coef`: the Crist 1985 tasseled-cap coefficient vectors
(brightness, greenness, wetness), exactly as in the source. -/
def bgw_coef : List (List ℚ) :=
  [[0.2043, 0.4158, 0.5524, 0.5741, 0.3124, 0.2330],
   [-0.1603, -0.2189, -0.4934, 0.7940, -0.0002, -0.1446],
   [0.0315, 0.2021, 0.3102, 0.1954, -0.6806, -0.6109]]

/-- The numexpr expression shared by the three tasseled-cap transforms:
`blue*c1 + green*c2 + red*c3 + nir*c4 + swir1*c5 + swir2*c6` after
destructuring `c1..c6` from a coefficient vector. -/
def tcExpr (cs : List ℚ) (b g r n s1 s2 : ℚ) : ℚ :=
  match cs with
  | [c1, c2, c3, c4, c5, c6] => b * c1 + g * c2 + r * c3 + n * c4 + s1 * c5 + s2 * c6
  | _ => 0

/-- `_evi`: EVI = 2.5 (nir − red) / (nir + 6 red − 7.5 blue + input_scaling),
multiplied by `output_scaling` when it differs from 1, then `astype`
to the red band's dtype. -/
def _evi (red nir blue : NDArray) (input_scaling output_scaling : ℚ) : NDArray :=
  let dtype := red.dtype
  let evi := zipWith3Q
    (fun r n b => 2.5 * (n - r) / (n + 6 * r - 7.5 * b + input_scaling))
    red.vals nir.vals blue.vals
  let evi2 := if output_scaling ≠ 1 then evi.map (fun x => x * output_scaling) else evi
  ⟨dtype, evi2.map (castQ dtype)⟩

/-- `_ndvi`: NDVI = (nir − red) / (nir + red), multiplied by `output_scaling`
unless it equals 1 (no trailing cast; division yields a float array). -/
def _ndvi (red nir : NDArray) (output_scaling : ℚ) : NDArray :=
  let v := List.zipWith (fun r n => (n - r) / (n + r)) red.vals nir.vals
  if output_scaling = 1 then ⟨Dtype.floatLike, v⟩
  else ⟨Dtype.floatLike, v.map (fun x => x * output_scaling)⟩

/-- `_ndmi`: NDMI = (nir − swir1) / (nir + swir1), same scaling rule as NDVI. -/
def _ndmi (swir1 nir : NDArray) (output_scaling : ℚ) : NDArray :=
  let v := List.zipWith (fun s n => (n - s) / (n + s)) swir1.vals nir.vals
  if output_scaling = 1 then ⟨Dtype.floatLike, v⟩
  else ⟨Dtype.floatLike, v.map (fun x => x * output_scaling)⟩

/-- `_nbr`: NBR = (nir − swir2) / (nir + swir2), same scaling rule as NDVI. -/
def _nbr (swir2 nir : NDArray) (output_scaling : ℚ) : NDArray :=
  let v := List.zipWith (fun s n => (n - s) / (n + s)) swir2.vals nir.vals
  if output_scaling = 1 then ⟨Dtype.floatLike, v⟩
  else ⟨Dtype.floatLike, v.map (fun x => x * output_scaling)⟩

/-- `_brightness`: tasseled-cap brightness with `bgw_coef[0]`;
returned as-is when `input_scaling == output_scaling`, else multiplied by
`output_scaling / input_scaling`. -/
def _brightness (blue green red nir swir1 swir2 : NDArray)
    (input_scaling output_scaling : ℚ) : NDArray :=
  let v := zipWith6Q (tcExpr (bgw_coef.getD 0 []))
    blue.vals green.vals red.vals nir.vals swir1.vals swir2.vals
  if input_scaling = output_scaling then ⟨Dtype.floatLike, v⟩
  else ⟨Dtype.floatLike, v.map (fun x => output_scaling / input_scaling * x)⟩

/-- `_greenness`: tasseled-cap greenness with `bgw_coef[1]`, same scaling
rule as brightness. -/
def _greenness (blue green red nir swir1 swir2 : NDArray)
    (input_scaling output_scaling : ℚ) : NDArray :=
  let v := zipWith6Q (tcExpr (bgw_coef.getD 1 []))
    blue.vals green.vals red.vals nir.vals swir1.vals swir2.vals
  if input_scaling = output_scaling then ⟨Dtype.floatLike, v⟩
  else ⟨Dtype.floatLike, v.map (fun x => output_scaling / input_scaling * x)⟩

/-- `_wetness`: tasseled-cap wetness with `bgw_coef[2]`, same scaling rule
as brightness. -/
def _wetness (blue green red nir swir1 swir2 : NDArray)
    (input_scaling output_scaling : ℚ) : NDArray :=
  let v := zipWith6Q (tcExpr (bgw_coef.getD 2 []))
    blue.vals green.vals red.vals nir.vals swir1.vals swir2.vals
  if input_scaling = output_scaling then ⟨Dtype.floatLike, v⟩
  else ⟨Dtype.floatLike, v.map (fun x => output_scaling / input_scaling * x)⟩

/- ------------------------------------------------------------------ -/
/- Helper lemmas on the elementwise combinators.                       -/
/- ------------------------------------------------------------------ -/

theorem zipWithQ_congr {f g : ℚ → ℚ → ℚ} (h : ∀ a b, f a b = g a b)
    (as bs : List ℚ) : List.zipWith f as bs = List.zipWith g as bs := by
  have hfg : f = g := funext fun a => funext fun b => h a b
  rw [hfg]

theorem map_zipWithQ (h : ℚ → ℚ) (f : ℚ → ℚ → ℚ) :
    ∀ (as bs : List ℚ),
      (List.zipWith f as bs).map h = List.zipWith (fun a b => h (f a b)) as bs := by
  intro as
  induction as with
  | nil => intro bs; rfl
  | cons a as ih =>
      intro bs
      cases bs with
      | nil => rfl
      | cons b bs => simp [List.zipWith, ih]

theorem zipWith3Q_congr {f g : ℚ → ℚ → ℚ → ℚ} (h : ∀ a b c, f a b c = g a b c)
    (as bs cs : List ℚ) : zipWith3Q f as bs cs = zipWith3Q g as bs cs := by
  have hfg : f = g := funext fun a => funext fun b => funext fun c => h a b c
  rw [hfg]

theorem map_zipWith3Q (h : ℚ → ℚ) (f : ℚ → ℚ → ℚ → ℚ) :
    ∀ (as bs cs : List ℚ),
      (zipWith3Q f as bs cs).map h = zipWith3Q (fun a b c => h (f a b c)) as bs cs := by
  intro as
  induction as with
  | nil => intro bs cs; rfl
  | cons a as ih =>
      intro bs cs
      cases bs with
      | nil => rfl
      | cons b bs =>
          cases cs with
          | nil => rfl
          | cons c cs => simp [zipWith3Q, ih]

theorem zipWith6Q_congr {f g : ℚ → ℚ → ℚ → ℚ → ℚ → ℚ → ℚ}
    (h : ∀ a b c d e x, f a b c d e x = g a b c d e x)
    (as bs cs ds es xs : List ℚ) :
    zipWith6Q f as bs cs ds es xs = zipWith6Q g as bs cs ds es xs := by
  have hfg : f = g := funext fun a => funext fun b => funext fun c =>
    funext fun d => funext fun e => funext fun x => h a b c d e x
  rw [hfg]

theorem map_castQ_float (l : List ℚ) : l.map (castQ Dtype.floatLike) = l := by
  induction l with
  | nil => rfl
  | cons a l ih => simp [castQ, ih]

/-- Claim C1: the NDVI transform returns elementwise
(nir − red) / (nir + red) scaled by `output_scaling` (the multiply is
skipped when `output_scaling = 1`, which does not change the value), and
for the single pixel red = 100, nir = 200 with `output_scaling = 1` the
result is 1/3. -/
theorem claim_C1 :
    (∀ (red nir : NDArray) (os : ℚ),
      (_ndvi red nir os).vals =
        List.zipWith (fun r n => (n - r) / (n + r) * os) red.vals nir.vals) ∧
    (_ndvi ⟨Dtype.floatLike, [100]⟩ ⟨Dtype.floatLike, [200]⟩ 1).vals = [1/3] := by
  constructor
  · intro red nir os
    by_cases h : os = 1
    · subst h
      simp only [_ndvi, if_pos rfl]
      exact (zipWithQ_congr (fun r n => by rw [mul_one]) _ _)
    · simp only [_ndvi, if_neg h]
      exact map_zipWithQ _ _ _ _
  · simp [_ndvi]
    norm_num

/-- Claim C2 fails as stated: for the single pixel blue = 10, red = 20,
nir = 100 with both scalings 1, the claimed value 2.5·80/146.5 = 400/293 is
wrong — the denominator is nir + 6·red − 7.5·blue + 1 = 146, so the code
returns 100/73 (≈ 1.3699), not 400/293 (≈ 1.3652). -/
theorem claim_C2_counterexample :
    (_evi ⟨Dtype.floatLike, [20]⟩ ⟨Dtype.floatLike, [100]⟩ ⟨Dtype.floatLike, [10]⟩
      1 1).vals ≠ [400/293] := by
  simp [_evi, zipWith3Q, castQ]
  norm_num

/-- Claim C2 (amended): for float-typed red (so the trailing `astype` to
red's dtype is the identity), the EVI transform returns elementwise
2.5 (nir − red) / (nir + 6 red − 7.5 blue + input_scaling) scaled by
`output_scaling` (multiply skipped when it is 1, with no change of value);
for the single pixel blue = 10, red = 20, nir = 100 with both scalings 1
the result is 2.5·80/146 = 100/73 ≈ 1.3699. -/
theorem claim_C2_amended :
    (∀ (red nir blue : NDArray) (is os : ℚ), red.dtype = Dtype.floatLike →
      (_evi red nir blue is os).vals =
        zipWith3Q (fun r n b => 2.5 * (n - r) / (n + 6 * r - 7.5 * b + is) * os)
          red.vals nir.vals blue.vals) ∧
    (_evi ⟨Dtype.floatLike, [20]⟩ ⟨Dtype.floatLike, [100]⟩ ⟨Dtype.floatLike, [10]⟩
      1 1).vals = [100/73] := by
  constructor
  · intro red nir blue is os h
    by_cases hos : os = 1
    · subst hos
      simp only [_evi, h, ne_eq, not_true_eq_false, if_false, ite_false]
      rw [map_castQ_float]
      exact zipWith3Q_congr (fun a b c => by rw [mul_one]) _ _ _
    · simp only [_evi, h, ne_eq]
      rw [if_pos (by simpa using hos), map_castQ_float, map_zipWith3Q]
  · simp [_evi, zipWith3Q, castQ]
    norm_num

/-- Witness for claim C2 (amended), at the concrete single-pixel scene of
the spec's Scenario 5 with a float-typed red band. -/
theorem claim_C2_witness :
    (NDArray.mk Dtype.floatLike [20]).dtype = Dtype.floatLike ∧
    (_evi ⟨Dtype.floatLike, [20]⟩ ⟨Dtype.floatLike, [100]⟩ ⟨Dtype.floatLike, [10]⟩
      1 1).vals =
      zipWith3Q (fun r n b => 2.5 * (n - r) / (n + 6 * r - 7.5 * b + 1) * 1)
        [20] [100] [10] :=
  ⟨rfl, claim_C2_amended.1 _ _ _ 1 1 rfl⟩

/-- Dot product of two equal-length coefficient/band vectors. -/
def dotProd (as bs : List ℚ) : ℚ := (List.zipWith (fun a b => a * b) as bs).sum

theorem tcExpr_dotProd (c1 c2 c3 c4 c5 c6 a b c d e x : ℚ) :
    tcExpr [c1, c2, c3, c4, c5, c6] a b c d e x =
      dotProd [c1, c2, c3, c4, c5, c6] [a, b, c, d, e, x] := by
  simp [tcExpr, dotProd]
  ring

/-- Claim C3: each tasseled-cap transform returns the elementwise dot
product of the six bands (blue, green, red, nir, swir1, swir2) with its
fixed Crist 1985 coefficient vector, as-is when
`input_scaling = output_scaling` and multiplied by
`output_scaling / input_scaling` otherwise; the three coefficient vectors
are pairwise distinct. -/
theorem claim_C3 :
    (∀ (b g r n s1 s2 : NDArray) (is os : ℚ),
      (_brightness b g r n s1 s2 is os).vals =
        (if is = os then
          zipWith6Q (fun x1 x2 x3 x4 x5 x6 =>
            dotProd (bgw_coef.getD 0 []) [x1, x2, x3, x4, x5, x6])
            b.vals g.vals r.vals n.vals s1.vals s2.vals
        else
          (zipWith6Q (fun x1 x2 x3 x4 x5 x6 =>
            dotProd (bgw_coef.getD 0 []) [x1, x2, x3, x4, x5, x6])
            b.vals g.vals r.vals n.vals s1.vals s2.vals).map
            (fun x => os / is * x))) ∧
    (∀ (b g r n s1 s2 : NDArray) (is os : ℚ),
      (_greenness b g r n s1 s2 is os).vals =
        (if is = os then
          zipWith6Q (fun x1 x2 x3 x4 x5 x6 =>
            dotProd (bgw_coef.getD 1 []) [x1, x2, x3, x4, x5, x6])
            b.vals g.vals r.vals n.vals s1.vals s2.vals
        else
          (zipWith6Q (fun x1 x2 x3 x4 x5 x6 =>
            dotProd (bgw_coef.getD 1 []) [x1, x2, x3, x4, x5, x6])
            b.vals g.vals r.vals n.vals s1.vals s2.vals).map
            (fun x => os / is * x))) ∧
    (∀ (b g r n s1 s2 : NDArray) (is os : ℚ),
      (_wetness b g r n s1 s2 is os).vals =
        (if is = os then
          zipWith6Q (fun x1 x2 x3 x4 x5 x6 =>
            dotProd (bgw_coef.getD 2 []) [x1, x2, x3, x4, x5, x6])
            b.vals g.vals r.vals n.vals s1.vals s2.vals
        else
          (zipWith6Q (fun x1 x2 x3 x4 x5 x6 =>
            dotProd (bgw_coef.getD 2 []) [x1, x2, x3, x4, x5, x6])
            b.vals g.vals r.vals n.vals s1.vals s2.vals).map
            (fun x => os / is * x))) ∧
    (bgw_coef.getD 0 [] ≠ bgw_coef.getD 1 [] ∧
     bgw_coef.getD 0 [] ≠ bgw_coef.getD 2 [] ∧
     bgw_coef.getD 1 [] ≠ bgw_coef.getD 2 []) := by
  have h0 : ∀ a b c d e x : ℚ,
      tcExpr (bgw_coef.getD 0 []) a b c d e x =
        dotProd (bgw_coef.getD 0 []) [a, b, c, d, e, x] := fun a b c d e x =>
    tcExpr_dotProd _ _ _ _ _ _ _ _ _ _ _ _
  have h1 : ∀ a b c d e x : ℚ,
      tcExpr (bgw_coef.getD 1 []) a b c d e x =
        dotProd (bgw_coef.getD 1 []) [a, b, c, d, e, x] := fun a b c d e x =>
    tcExpr_dotProd _ _ _ _ _ _ _ _ _ _ _ _
  have h2 : ∀ a b c d e x : ℚ,
      tcExpr (bgw_coef.getD 2 []) a b c d e x =
        dotProd (bgw_coef.getD 2 []) [a, b, c, d, e, x] := fun a b c d e x =>
    tcExpr_dotProd _ _ _ _ _ _ _ _ _ _ _ _
  refine ⟨?_, ?_, ?_, ?_, ?_, ?_⟩
  · intro b g r n s1 s2 is os
    simp only [_brightness]
    rw [apply_ite NDArray.vals, zipWith6Q_congr h0]
  · intro b g r n s1 s2 is os
    simp only [_greenness]
    rw [apply_ite NDArray.vals, zipWith6Q_congr h1]
  · intro b g r n s1 s2 is os
    simp only [_wetness]
    rw [apply_ite NDArray.vals, zipWith6Q_congr h2]
  · simp [bgw_coef]
    norm_num
  · simp [bgw_coef]
    norm_num
  · simp [bgw_coef]
    norm_num

/-- Claim C10: EVI casts its result to the red band's dtype, so every
output element of an integer-typed scene is an integer (the fractional
part is truncated); NDVI, NDMI and NBR ignore the input dtypes entirely
and return the exact division result, e.g. 1/3 (not an integer) for the
integer-typed pixel red = 100, nir = 200. -/
theorem claim_C10 :
    (∀ (red nir blue : NDArray) (is os : ℚ), red.dtype = Dtype.intLike →
      ∀ y ∈ (_evi red nir blue is os).vals, ∃ z : ℤ, y = (z : ℚ)) ∧
    (_evi ⟨Dtype.intLike, [20]⟩ ⟨Dtype.intLike, [100]⟩ ⟨Dtype.intLike, [10]⟩
      1 1).vals = [1] ∧
    (∀ (d1 d2 : Dtype) (v w : List ℚ) (os : ℚ),
      _ndvi ⟨d1, v⟩ ⟨d2, w⟩ os = _ndvi ⟨Dtype.floatLike, v⟩ ⟨Dtype.floatLike, w⟩ os) ∧
    (∀ (d1 d2 : Dtype) (v w : List ℚ) (os : ℚ),
      _ndmi ⟨d1, v⟩ ⟨d2, w⟩ os = _ndmi ⟨Dtype.floatLike, v⟩ ⟨Dtype.floatLike, w⟩ os) ∧
    (∀ (d1 d2 : Dtype) (v w : List ℚ) (os : ℚ),
      _nbr ⟨d1, v⟩ ⟨d2, w⟩ os = _nbr ⟨Dtype.floatLike, v⟩ ⟨Dtype.floatLike, w⟩ os) ∧
    (_ndvi ⟨Dtype.intLike, [100]⟩ ⟨Dtype.intLike, [200]⟩ 1).vals = [1/3] ∧
    ¬ ∃ z : ℤ, (1/3 : ℚ) = (z : ℚ) := by
  refine ⟨?_, ?_, ?_, ?_, ?_, ?_, ?_⟩
  · intro red nir blue is os h y hy
    simp only [_evi, h] at hy
    rcases List.mem_map.mp hy with ⟨x, _, hx⟩
    rw [← hx]
    simp only [castQ, ratTruncTowardZero]
    by_cases h0 : 0 ≤ x
    · exact ⟨⌊x⌋, by rw [if_pos h0]⟩
    · exact ⟨⌈x⌉, by rw [if_neg h0]⟩
  · have hfl : ⌊(100 / 73 : ℚ)⌋ = 1 := by
      rw [Int.floor_eq_iff]
      constructor <;> norm_num
    have hval : 2.5 * ((100 : ℚ) - 20) / (100 + 6 * 20 - 7.5 * 10 + 1) = 100 / 73 := by
      norm_num
    simp [_evi, zipWith3Q, castQ, ratTruncTowardZero, hval]
    rw [if_pos (by norm_num), hfl]
    norm_num
  · intro d1 d2 v w os; rfl
  · intro d1 d2 v w os; rfl
  · intro d1 d2 v w os; rfl
  · simp [_ndvi]
    norm_num
  · rintro ⟨z, hz⟩
    have hden : ((1 : ℚ)/3).den = 1 := by rw [hz]; exact Rat.den_intCast z
    norm_num at hden

/-- Witness for claim C10: at the integer-typed Scenario-5 pixel, every
EVI output element is an integer. -/
theorem claim_C10_witness :
    (NDArray.mk Dtype.intLike [20]).dtype = Dtype.intLike ∧
    (∀ y ∈ (_evi ⟨Dtype.intLike, [20]⟩ ⟨Dtype.intLike, [100]⟩
        ⟨Dtype.intLike, [10]⟩ 1 1).vals, ∃ z : ℤ, y = (z : ℚ)) :=
  ⟨rfl, claim_C10.1 _ _ _ 1 1 rfl⟩

theorem mem_zipWithQ {f : ℚ → ℚ → ℚ} :
    ∀ {as bs : List ℚ} {y : ℚ}, y ∈ List.zipWith f as bs →
      ∃ a, a ∈ as ∧ ∃ b, b ∈ bs ∧ y = f a b := by
  intro as
  induction as with
  | nil => intro bs y hy; simp [List.zipWith] at hy
  | cons a as ih =>
      intro bs y hy
      cases bs with
      | nil => simp [List.zipWith] at hy
      | cons b bs =>
          rcases List.mem_cons.mp hy with h | h
          · exact ⟨a, List.mem_cons_self _ _, b, List.mem_cons_self _ _, h⟩
          · rcases ih h with ⟨a', ha, b', hb, hy'⟩
            exact ⟨a', List.mem_cons_of_mem _ ha, b', List.mem_cons_of_mem _ hb, hy'⟩

theorem ratio_abs_le_one (r n : ℚ) (hr : 0 ≤ r) (hn : 0 ≤ n) :
    |(n - r) / (n + r)| ≤ 1 := by
  rcases eq_or_lt_of_le (add_nonneg hn hr) with h | h
  · rw [← h, div_zero]
    simp
  · rw [abs_div, abs_of_pos h, div_le_one h, abs_le]
    constructor <;> linarith

theorem nd_vals_bound (a b : List ℚ) (os : ℚ)
    (ha : ∀ x ∈ a, 0 ≤ x) (hb : ∀ x ∈ b, 0 ≤ x) :
    ∀ y ∈ (if os = 1 then List.zipWith (fun r n => (n - r) / (n + r)) a b
           else (List.zipWith (fun r n => (n - r) / (n + r)) a b).map
             (fun x => x * os)),
      |y| ≤ |os| := by
  intro y hy
  by_cases h : os = 1
  · subst h
    rw [if_pos rfl] at hy
    rcases mem_zipWithQ hy with ⟨r, hr, n, hn, rfl⟩
    simpa using ratio_abs_le_one r n (ha r hr) (hb n hn)
  · rw [if_neg h] at hy
    rcases List.mem_map.mp hy with ⟨v, hv, rfl⟩
    rcases mem_zipWithQ hv with ⟨r, hr, n, hn, rfl⟩
    rw [abs_mul]
    calc |(n - r) / (n + r)| * |os| ≤ 1 * |os| :=
          mul_le_mul_of_nonneg_right (ratio_abs_le_one r n (ha r hr) (hb n hn))
            (abs_nonneg os)
      _ = |os| := one_mul _

/-- Claim C5: whenever all input band values are non-negative, every
element of the NDVI, NDMI and NBR outputs has absolute value at most
`|output_scaling|` (i.e. lies in [-1, 1] scaled by `output_scaling`). -/
theorem claim_C5 (red nir swir1 swir2 : NDArray) (os : ℚ)
    (hred : ∀ x ∈ red.vals, 0 ≤ x) (hnir : ∀ x ∈ nir.vals, 0 ≤ x)
    (hs1 : ∀ x ∈ swir1.vals, 0 ≤ x) (hs2 : ∀ x ∈ swir2.vals, 0 ≤ x) :
    (∀ y ∈ (_ndvi red nir os).vals, |y| ≤ |os|) ∧
    (∀ y ∈ (_ndmi swir1 nir os).vals, |y| ≤ |os|) ∧
    (∀ y ∈ (_nbr swir2 nir os).vals, |y| ≤ |os|) := by
  refine ⟨?_, ?_, ?_⟩
  · intro y hy
    simp only [_ndvi] at hy
    rw [apply_ite NDArray.vals] at hy
    exact nd_vals_bound red.vals nir.vals os hred hnir y hy
  · intro y hy
    simp only [_ndmi] at hy
    rw [apply_ite NDArray.vals] at hy
    exact nd_vals_bound swir1.vals nir.vals os hs1 hnir y hy
  · intro y hy
    simp only [_nbr] at hy
    rw [apply_ite NDArray.vals] at hy
    exact nd_vals_bound swir2.vals nir.vals os hs2 hnir y hy

/-- Witness for claim C5 at a concrete non-negative scene with
`output_scaling = 10000`. -/
theorem claim_C5_witness :
    ((∀ x ∈ (NDArray.mk Dtype.floatLike [100]).vals, (0 : ℚ) ≤ x) ∧
     (∀ x ∈ (NDArray.mk Dtype.floatLike [200]).vals, (0 : ℚ) ≤ x) ∧
     (∀ x ∈ (NDArray.mk Dtype.floatLike [50]).vals, (0 : ℚ) ≤ x) ∧
     (∀ x ∈ (NDArray.mk Dtype.floatLike [25]).vals, (0 : ℚ) ≤ x)) ∧
    ((∀ y ∈ (_ndvi ⟨Dtype.floatLike, [100]⟩ ⟨Dtype.floatLike, [200]⟩ 10000).vals,
        |y| ≤ |(10000 : ℚ)|) ∧
     (∀ y ∈ (_ndmi ⟨Dtype.floatLike, [50]⟩ ⟨Dtype.floatLike, [200]⟩ 10000).vals,
        |y| ≤ |(10000 : ℚ)|) ∧
     (∀ y ∈ (_nbr ⟨Dtype.floatLike, [25]⟩ ⟨Dtype.floatLike, [200]⟩ 10000).vals,
        |y| ≤ |(10000 : ℚ)|)) := by
  have h1 : ∀ x ∈ (NDArray.mk Dtype.floatLike [100]).vals, (0 : ℚ) ≤ x := by
    intro x hx; simp at hx; subst hx; norm_num
  have h2 : ∀ x ∈ (NDArray.mk Dtype.floatLike [200]).vals, (0 : ℚ) ≤ x := by
    intro x hx; simp at hx; subst hx; norm_num
  have h3 : ∀ x ∈ (NDArray.mk Dtype.floatLike [50]).vals, (0 : ℚ) ≤ x := by
    intro x hx; simp at hx; subst hx; norm_num
  have h4 : ∀ x ∈ (NDArray.mk Dtype.floatLike [25]).vals, (0 : ℚ) ≤ x := by
    intro x hx; simp at hx; subst hx; norm_num
  exact ⟨⟨h1, h2, h3, h4⟩,
    claim_C5 ⟨Dtype.floatLike, [100]⟩ ⟨Dtype.floatLike, [200]⟩
      ⟨Dtype.floatLike, [50]⟩ ⟨Dtype.floatLike, [25]⟩ 10000 h1 h2 h3 h4⟩

theorem map_scale_scale (a b : ℚ) (l : List ℚ) :
    (l.map (fun x => a * x)).map (fun x => b * x) = l.map (fun x => b * a * x) := by
  induction l with
  | nil => rfl
  | cons h t ih => simp [ih, mul_assoc]

theorem map_one_scale (l : List ℚ) : l.map (fun x => (1 : ℚ) * x) = l := by
  induction l with
  | nil => rfl
  | cons h t ih => simp [ih]

theorem zipWith6Q_map_all (g : ℚ → ℚ) (f : ℚ → ℚ → ℚ → ℚ → ℚ → ℚ → ℚ) :
    ∀ (as bs cs ds es xs : List ℚ),
      zipWith6Q f (as.map g) (bs.map g) (cs.map g) (ds.map g) (es.map g) (xs.map g)
        = zipWith6Q (fun a b c d e x => f (g a) (g b) (g c) (g d) (g e) (g x))
            as bs cs ds es xs := by
  intro as
  induction as with
  | nil => intro bs cs ds es xs; rfl
  | cons a as ih =>
      intro bs cs ds es xs
      cases bs with
      | nil => rfl
      | cons b bs =>
          cases cs with
          | nil => rfl
          | cons c cs =>
              cases ds with
              | nil => rfl
              | cons d ds =>
                  cases es with
                  | nil => rfl
                  | cons e es =>
                      cases xs with
                      | nil => rfl
                      | cons x xs => simp [zipWith6Q, ih]

theorem map_zipWith6Q (h : ℚ → ℚ) (f : ℚ → ℚ → ℚ → ℚ → ℚ → ℚ → ℚ) :
    ∀ (as bs cs ds es xs : List ℚ),
      (zipWith6Q f as bs cs ds es xs).map h
        = zipWith6Q (fun a b c d e x => h (f a b c d e x)) as bs cs ds es xs := by
  intro as
  induction as with
  | nil => intro bs cs ds es xs; rfl
  | cons a as ih =>
      intro bs cs ds es xs
      cases bs with
      | nil => rfl
      | cons b bs =>
          cases cs with
          | nil => rfl
          | cons c cs =>
              cases ds with
              | nil => rfl
              | cons d ds =>
                  cases es with
                  | nil => rfl
                  | cons e es =>
                      cases xs with
                      | nil => rfl
                      | cons x xs => simp [zipWith6Q, ih]

theorem tcExpr_smul (cs : List ℚ) (k a b c d e x : ℚ) :
    tcExpr cs (k * a) (k * b) (k * c) (k * d) (k * e) (k * x)
      = k * tcExpr cs a b c d e x := by
  unfold tcExpr
  split
  · ring
  · ring

/-- The scaling branch shared by the three tasseled-cap transforms is
exactly linear in the input bands, provided the scalar is nonzero. -/
theorem tc_scale_lists (cs : List ℚ) (k os : ℚ) (hk : k ≠ 0)
    (b g r n s1 s2 : List ℚ) :
    (if k = os then
       zipWith6Q (tcExpr cs) (b.map (fun x => k * x)) (g.map (fun x => k * x))
         (r.map (fun x => k * x)) (n.map (fun x => k * x))
         (s1.map (fun x => k * x)) (s2.map (fun x => k * x))
     else
       (zipWith6Q (tcExpr cs) (b.map (fun x => k * x)) (g.map (fun x => k * x))
         (r.map (fun x => k * x)) (n.map (fun x => k * x))
         (s1.map (fun x => k * x)) (s2.map (fun x => k * x))).map
         (fun x => os / k * x))
    = (if (1 : ℚ) = os then zipWith6Q (tcExpr cs) b g r n s1 s2
       else (zipWith6Q (tcExpr cs) b g r n s1 s2).map (fun x => os / 1 * x)) := by
  have hW : zipWith6Q (tcExpr cs) (b.map (fun x => k * x)) (g.map (fun x => k * x))
      (r.map (fun x => k * x)) (n.map (fun x => k * x))
      (s1.map (fun x => k * x)) (s2.map (fun x => k * x))
      = (zipWith6Q (tcExpr cs) b g r n s1 s2).map (fun x => k * x) := by
    rw [zipWith6Q_map_all, map_zipWith6Q]
    exact zipWith6Q_congr (fun a b' c d e x => tcExpr_smul cs k a b' c d e x) _ _ _ _ _ _
  rw [hW]
  by_cases h1 : k = os
  · rw [if_pos h1]
    by_cases h2 : (1 : ℚ) = os
    · rw [if_pos h2]
      have hk1 : k = 1 := by rw [h1, ← h2]
      rw [hk1, map_one_scale]
    · rw [if_neg h2, div_one, ← h1]
  · rw [if_neg h1, map_scale_scale, div_mul_cancel₀ os hk]
    by_cases h2 : (1 : ℚ) = os
    · rw [if_pos h2, ← h2, map_one_scale]
    · rw [if_neg h2, div_one]

/-- Multiplying every input band by a scalar `k` (as numpy scalar-array
multiplication does). -/
def scaleArr (k : ℚ) (a : NDArray) : NDArray := ⟨a.dtype, a.vals.map (fun x => k * x)⟩

/-- Claim C6: for every positive scalar k, the three tasseled-cap
transforms satisfy transform(k·input, input_scaling = k) =
transform(input, input_scaling = 1) at the same `output_scaling`. -/
theorem claim_C6 (blue green red nir swir1 swir2 : NDArray) (k os : ℚ)
    (hk : 0 < k) :
    _brightness (scaleArr k blue) (scaleArr k green) (scaleArr k red)
        (scaleArr k nir) (scaleArr k swir1) (scaleArr k swir2) k os
      = _brightness blue green red nir swir1 swir2 1 os ∧
    _greenness (scaleArr k blue) (scaleArr k green) (scaleArr k red)
        (scaleArr k nir) (scaleArr k swir1) (scaleArr k swir2) k os
      = _greenness blue green red nir swir1 swir2 1 os ∧
    _wetness (scaleArr k blue) (scaleArr k green) (scaleArr k red)
        (scaleArr k nir) (scaleArr k swir1) (scaleArr k swir2) k os
      = _wetness blue green red nir swir1 swir2 1 os := by
  have hk0 : k ≠ 0 := ne_of_gt hk
  refine ⟨?_, ?_, ?_⟩
  · simp only [_brightness, scaleArr]
    rw [← apply_ite (NDArray.mk Dtype.floatLike), ← apply_ite (NDArray.mk Dtype.floatLike)]
    exact congrArg _ (tc_scale_lists _ k os hk0 _ _ _ _ _ _)
  · simp only [_greenness, scaleArr]
    rw [← apply_ite (NDArray.mk Dtype.floatLike), ← apply_ite (NDArray.mk Dtype.floatLike)]
    exact congrArg _ (tc_scale_lists _ k os hk0 _ _ _ _ _ _)
  · simp only [_wetness, scaleArr]
    rw [← apply_ite (NDArray.mk Dtype.floatLike), ← apply_ite (NDArray.mk Dtype.floatLike)]
    exact congrArg _ (tc_scale_lists _ k os hk0 _ _ _ _ _ _)

/-- Witness for claim C6 with k = 2, output_scaling = 10000 on a concrete
six-band single-pixel scene. -/
theorem claim_C6_witness :
    (0 : ℚ) < 2 ∧
    (_brightness (scaleArr 2 ⟨Dtype.floatLike, [1]⟩) (scaleArr 2 ⟨Dtype.floatLike, [2]⟩)
        (scaleArr 2 ⟨Dtype.floatLike, [3]⟩) (scaleArr 2 ⟨Dtype.floatLike, [4]⟩)
        (scaleArr 2 ⟨Dtype.floatLike, [5]⟩) (scaleArr 2 ⟨Dtype.floatLike, [6]⟩) 2 10000
      = _brightness ⟨Dtype.floatLike, [1]⟩ ⟨Dtype.floatLike, [2]⟩ ⟨Dtype.floatLike, [3]⟩
          ⟨Dtype.floatLike, [4]⟩ ⟨Dtype.floatLike, [5]⟩ ⟨Dtype.floatLike, [6]⟩ 1 10000 ∧
     _greenness (scaleArr 2 ⟨Dtype.floatLike, [1]⟩) (scaleArr 2 ⟨Dtype.floatLike, [2]⟩)
        (scaleArr 2 ⟨Dtype.floatLike, [3]⟩) (scaleArr 2 ⟨Dtype.floatLike, [4]⟩)
        (scaleArr 2 ⟨Dtype.floatLike, [5]⟩) (scaleArr 2 ⟨Dtype.floatLike, [6]⟩) 2 10000
      = _greenness ⟨Dtype.floatLike, [1]⟩ ⟨Dtype.floatLike, [2]⟩ ⟨Dtype.floatLike, [3]⟩
          ⟨Dtype.floatLike, [4]⟩ ⟨Dtype.floatLike, [5]⟩ ⟨Dtype.floatLike, [6]⟩ 1 10000 ∧
     _wetness (scaleArr 2 ⟨Dtype.floatLike, [1]⟩) (scaleArr 2 ⟨Dtype.floatLike, [2]⟩)
        (scaleArr 2 ⟨Dtype.floatLike, [3]⟩) (scaleArr 2 ⟨Dtype.floatLike, [4]⟩)
        (scaleArr 2 ⟨Dtype.floatLike, [5]⟩) (scaleArr 2 ⟨Dtype.floatLike, [6]⟩) 2 10000
      = _wetness ⟨Dtype.floatLike, [1]⟩ ⟨Dtype.floatLike, [2]⟩ ⟨Dtype.floatLike, [3]⟩
          ⟨Dtype.floatLike, [4]⟩ ⟨Dtype.floatLike, [5]⟩ ⟨Dtype.floatLike, [6]⟩ 1 10000) :=
  ⟨by norm_num,
   claim_C6 ⟨Dtype.floatLike, [1]⟩ ⟨Dtype.floatLike, [2]⟩ ⟨Dtype.floatLike, [3]⟩
     ⟨Dtype.floatLike, [4]⟩ ⟨Dtype.floatLike, [5]⟩ ⟨Dtype.floatLike, [6]⟩ 2 10000
     (by norm_num)⟩

/-- ASCII lowercasing of one character (Python's `str.lower` on the ASCII
identifiers used here). -/
def lowerChar (c : Char) : Char :=
  if 65 ≤ c.toNat ∧ c.toNat ≤ 90 then Char.ofNat (c.toNat + 32) else c

/-- ASCII lowercasing of a string: models Python's `str.lower()` and the
click `token_normalize_func` of the source. -/
def lowerStr (s : String) : String := String.mk (s.data.map lowerChar)

/-- A registered transform: the decorator-attached display name and
required-band list, plus the compute function.  The compute function is
handed the role-indexed band arrays (each function picks out the roles it
names; extras are swallowed by `**kwargs` in the source) together with
`input_scaling` and `output_scaling`. -/
structure TransformDef where
  transform_name : String
  required_bands : List Role
  func : (Role → NDArray) → ℚ → ℚ → NDArray

/-- `transform_funcs`: the functions of the module carrying decorator
metadata, in the alphabetical order produced by `inspect.getmembers`. -/
def transform_funcs : List TransformDef :=
  [⟨"Brightness", [Role.blue, Role.green, Role.red, Role.nir, Role.swir1, Role.swir2],
     fun a is os => _brightness (a Role.blue) (a Role.green) (a Role.red)
       (a Role.nir) (a Role.swir1) (a Role.swir2) is os⟩,
   ⟨"EVI", [Role.red, Role.nir, Role.blue],
     fun a is os => _evi (a Role.red) (a Role.nir) (a Role.blue) is os⟩,
   ⟨"Greenness", [Role.blue, Role.green, Role.red, Role.nir, Role.swir1, Role.swir2],
     fun a is os => _greenness (a Role.blue) (a Role.green) (a Role.red)
       (a Role.nir) (a Role.swir1) (a Role.swir2) is os⟩,
   ⟨"NBR", [Role.swir2, Role.nir],
     fun a _ os => _nbr (a Role.swir2) (a Role.nir) os⟩,
   ⟨"NDMI", [Role.swir1, Role.nir],
     fun a _ os => _ndmi (a Role.swir1) (a Role.nir) os⟩,
   ⟨"NDVI", [Role.red, Role.nir],
     fun a _ os => _ndvi (a Role.red) (a Role.nir) os⟩,
   ⟨"Wetness", [Role.blue, Role.green, Role.red, Role.nir, Role.swir1, Role.swir2],
     fun a is os => _wetness (a Role.blue) (a Role.green) (a Role.red)
       (a Role.nir) (a Role.swir1) (a Role.swir2) is os⟩]

/-- `_transforms`: the fixed list of user-facing transform identifiers
(the `click.Choice` of the `<transform>` arguments). -/
def _transforms : List String :=
  ["evi", "ndvi", "ndmi", "nbr", "brightness", "greenness", "wetness"]

/-- `required_bands`: the union over ALL registered transforms (not just
the requested ones) of their required-band lists. -/
def required_bands_all : List Role :=
  transform_funcs.foldl (fun acc t => acc.union t.required_bands) []

/-- The request surface of one invocation: the ordered transform
identifiers, the two scaling factors, the output no-data value and the
role-to-band-index assignment (`--blue 1` .. `--swir2 6`). -/
structure Request where
  transforms : List String
  input_scaling : ℚ
  output_scaling : ℚ
  nodata : ℚ
  roleIdx : Role → Nat

/-- One raster band as delivered by the raster-access collaborator:
its dtype, its declared no-data value (`GetNoDataValue()`, possibly
absent) and its pixel values (`ReadAsArray`, flattened). -/
structure Band where
  dtype : Dtype
  nodataDeclared : Option ℚ
  vals : List ℚ

/-- An opened source dataset: band access by 1-based index and the pixel
count of the scene (`RasterYSize * RasterXSize`). -/
structure Dataset where
  getBand : Nat → Band
  npix : Nat

/-- The error taxonomy of the request path. -/
inductive TErr
  | NoTransformsSpecified
  | UnknownTransform
  deriving DecidableEq, Repr

/-- The click-level validation of the `<transform>` arguments: every
token (lowercased by `token_normalize_func`) must be one of the
`click.Choice(_transforms)` values.  This runs at argument-parse time,
before the body of `create_transform` and hence before any dataset is
opened. -/
def clickValidate (req : Request) : Bool :=
  req.transforms.all (fun t => _transforms.contains (lowerStr t))

/-- `GetNoDataValue() or nodata`: Python's `or` falls through to the
user-supplied output no-data value when the declared value is `None`
or falsy (i.e. equal to 0). -/
def sentinelOr (declared : Option ℚ) (nodata : ℚ) : ℚ :=
  match declared with
  | some v => if v = 0 then nodata else v
  | none => nodata

/-- The band read for a role: `ds.GetRasterBand(func_args[b])`. -/
def bandFor (req : Request) (ds : Dataset) (r : Role) : Band :=
  ds.getBand (req.roleIdx r)

/-- One iteration of the mask loop: `mask[transform_args[b] == _nodata] = 1`
for band `b`, i.e. or-ing into the running mask the pixels equal to that
band's input sentinel. -/
def maskStep (req : Request) (ds : Dataset) (m : List Bool) (r : Role) : List Bool :=
  List.zipWith
    (fun mv v => mv || decide (v = sentinelOr (bandFor req ds r).nodataDeclared req.nodata))
    m (bandFor req ds r).vals

/-- The aggregated no-data mask: starts all-false at the scene's shape and
accumulates every required band's sentinel matches. -/
def aggMask (req : Request) (ds : Dataset) : List Bool :=
  required_bands_all.foldl (maskStep req ds) (List.replicate ds.npix false)

/-- The role-indexed arrays handed to every transform function. -/
def arraysFor (req : Request) (ds : Dataset) : Role → NDArray :=
  fun r => ⟨(bandFor req ds r).dtype, (bandFor req ds r).vals⟩

/-- Insertion into the ordered output dict keyed by display name
(`OrderedDict` assignment: an existing key keeps its position and gets the
new value, a new key is appended). -/
def upsert (l : List (String × List ℚ)) (k : String) (v : List ℚ) :
    List (String × List ℚ) :=
  if l.any (fun p => p.1 == k) then l.map (fun p => if p.1 == k then (k, v) else p)
  else l ++ [(k, v)]

/-- The transform loop: for each requested identifier in request order,
resolve the registered function whose lowercased display name matches and
store its result keyed by display name. -/
def computeTransforms (req : Request) (ds : Dataset) :
    Except TErr (List (String × List ℚ)) :=
  req.transforms.foldlM
    (fun acc t =>
      match transform_funcs.find? (fun tf => lowerStr tf.transform_name == t) with
      | some tf => Except.ok (upsert acc tf.transform_name
          (tf.func (arraysFor req ds) req.input_scaling req.output_scaling).vals)
      | none => Except.error TErr.UnknownTransform)
    []

/-- The output-assembly masking: `array[mask] = nodata`. -/
def applyMaskArr (a : List ℚ) (mask : List Bool) (nodata : ℚ) : List ℚ :=
  List.zipWith (fun v m => if m then nodata else v) a mask

/-- `create_transform`, the whole invocation: click validates the
transform identifiers at parse time; the body then rejects an empty
request, reads the required bands, aggregates the mask, computes the
requested transforms in order and masks every output with the output
no-data value. -/
def create_transform (req : Request) (ds : Dataset) :
    Except TErr (List (String × List ℚ)) :=
  if clickValidate req then
    if req.transforms.isEmpty then Except.error TErr.NoTransformsSpecified
    else (computeTransforms req ds).map
      (fun outs => outs.map (fun pr => (pr.1, applyMaskArr pr.2 (aggMask req ds) req.nodata)))
  else Except.error TErr.UnknownTransform

/-- Claim C7: a request containing an identifier outside the fixed set
{evi, ndvi, ndmi, nbr, brightness, greenness, wetness} fails with
`UnknownTransform` for EVERY dataset — the result does not depend on the
raster at all, so no band is read and no transform is computed. -/
theorem claim_C7 (req : Request) (t : String) (ht : t ∈ req.transforms)
    (hbad : lowerStr t ∉ _transforms) :
    ∀ ds : Dataset, create_transform req ds = Except.error TErr.UnknownTransform := by
  intro ds
  have hv : clickValidate req = false := by
    cases hc : clickValidate req
    · rfl
    · exact absurd (List.mem_of_elem_eq_true (List.all_eq_true.mp hc t ht)) hbad
  unfold create_transform
  rw [if_neg (by simp [hv])]

/-- Witness request for claim C7: a misspelled identifier. -/
def reqC7 : Request := ⟨["nddvi"], 10000, 10000, -9999, fun _ => 1⟩

/-- Witness dataset for claim C7. -/
def dsC7 : Dataset := ⟨fun _ => ⟨Dtype.floatLike, none, [0]⟩, 1⟩

/-- Witness for claim C7 at the misspelled identifier "nddvi". -/
theorem claim_C7_witness :
    ("nddvi" ∈ reqC7.transforms ∧ lowerStr "nddvi" ∉ _transforms) ∧
    create_transform reqC7 dsC7 = Except.error TErr.UnknownTransform := by
  have h1 : "nddvi" ∈ reqC7.transforms := by simp [reqC7]
  have h2 : lowerStr "nddvi" ∉ _transforms := by decide
  exact ⟨⟨h1, h2⟩, claim_C7 reqC7 "nddvi" h1 h2 dsC7⟩

/-- Claim C8: an empty request list fails with `NoTransformsSpecified`
for EVERY dataset — the result does not depend on the raster, so the
failure happens before any source data is consulted. -/
theorem claim_C8 (req : Request) (hreq : req.transforms = []) :
    ∀ ds : Dataset, create_transform req ds = Except.error TErr.NoTransformsSpecified := by
  intro ds
  have hv : clickValidate req = true := by
    simp [clickValidate, hreq]
  unfold create_transform
  rw [if_pos (by simp [hv]), if_pos (by simp [hreq])]

/-- Witness request for claim C8: the empty request. -/
def reqC8 : Request := ⟨[], 10000, 10000, -9999, fun _ => 1⟩

/-- Witness dataset for claim C8. -/
def dsC8 : Dataset := ⟨fun _ => ⟨Dtype.floatLike, none, [5]⟩, 1⟩

/-- Witness for claim C8 at the empty request. -/
theorem claim_C8_witness :
    reqC8.transforms = [] ∧
    create_transform reqC8 dsC8 = Except.error TErr.NoTransformsSpecified :=
  ⟨rfl, claim_C8 reqC8 rfl dsC8⟩

theorem zipOr_getD_false (s : ℚ) :
    ∀ (m : List Bool) (vs : List ℚ) (p : Nat),
      m.getD p false = false → vs.getD p 0 ≠ s →
      (List.zipWith (fun mv v => mv || decide (v = s)) m vs).getD p false = false := by
  intro m
  induction m with
  | nil => intro vs p h1 h2; cases vs <;> cases p <;> rfl
  | cons mv mt ih =>
      intro vs p h1 h2
      cases vs with
      | nil => cases p <;> rfl
      | cons v vt =>
          cases p with
          | zero =>
              simp only [List.getD_cons_zero] at h1 h2
              simp [List.getD_cons_zero, h1, h2]
          | succ p =>
              simp only [List.getD_cons_succ] at h1 h2
              simpa [List.getD_cons_succ] using ih vt p h1 h2

/-- Claim C9: the input sentinel compared against when building the mask is
the band's declared no-data value only when that value is truthy; a missing
declaration or a declared value of 0 falls back to the user-supplied output
no-data value, so (as long as the output no-data value is itself nonzero) a
band declaring sentinel 0 never has its 0-valued pixels masked by that
declaration. -/
theorem claim_C9 (nodata : ℚ) :
    sentinelOr none nodata = nodata ∧
    sentinelOr (some 0) nodata = nodata ∧
    (∀ v : ℚ, v ≠ 0 → sentinelOr (some v) nodata = v) ∧
    (∀ (req : Request) (ds : Dataset) (r : Role) (m : List Bool) (p : Nat),
      req.nodata = nodata → nodata ≠ 0 →
      (bandFor req ds r).nodataDeclared = some 0 →
      (bandFor req ds r).vals.getD p 0 = 0 →
      m.getD p false = false →
      (maskStep req ds m r).getD p false = false) := by
  refine ⟨rfl, by simp [sentinelOr], fun v hv => by simp [sentinelOr, hv], ?_⟩
  intro req ds r m p hrn hnz hdecl hvals hm
  have hsent : sentinelOr (bandFor req ds r).nodataDeclared req.nodata = nodata := by
    rw [hdecl, hrn]
    simp [sentinelOr]
  unfold maskStep
  rw [hsent]
  apply zipOr_getD_false nodata m _ p hm
  rw [hvals]
  exact Ne.symm hnz

/-- Witness request for claim C9. -/
def reqC9 : Request := ⟨["ndvi"], 1, 1, -9999, fun _ => 1⟩

/-- Witness dataset for claim C9: the single band declares no-data 0 and
holds a 0-valued pixel. -/
def dsC9 : Dataset := ⟨fun _ => ⟨Dtype.floatLike, some 0, [0]⟩, 1⟩

/-- Witness for claim C9 at `nodata = -9999`: the declared 0 sentinel is
replaced by -9999, a nonzero declared sentinel (5) is kept, and the
0-valued pixel of the 0-declaring band stays unmasked. -/
theorem claim_C9_witness :
    sentinelOr (some 0) (-9999) = (-9999 : ℚ) ∧
    ((5 : ℚ) ≠ 0 ∧ sentinelOr (some 5) (-9999) = 5) ∧
    (reqC9.nodata = (-9999 : ℚ) ∧ (-9999 : ℚ) ≠ 0 ∧
     (bandFor reqC9 dsC9 Role.red).nodataDeclared = some 0 ∧
     (bandFor reqC9 dsC9 Role.red).vals.getD 0 0 = 0 ∧
     ([false] : List Bool).getD 0 false = false ∧
     (maskStep reqC9 dsC9 [false] Role.red).getD 0 false = false) := by
  have h := claim_C9 (-9999)
  exact ⟨h.2.1, ⟨by norm_num, h.2.2.1 5 (by norm_num)⟩,
    rfl, by norm_num, rfl, rfl, rfl,
    h.2.2.2 reqC9 dsC9 Role.red [false] 0 rfl (by norm_num) rfl rfl rfl⟩

theorem zipOr_getD (s : ℚ) :
    ∀ (m : List Bool) (vs : List ℚ) (p : Nat), p < m.length → p < vs.length →
      (List.zipWith (fun mv v => mv || decide (v = s)) m vs).getD p false
        = (m.getD p false || decide (vs.getD p 0 = s)) := by
  intro m
  induction m with
  | nil => intro vs p h1 h2; simp at h1
  | cons mv mt ih =>
      intro vs p h1 h2
      cases vs with
      | nil => simp at h2
      | cons v vt =>
          cases p with
          | zero => rfl
          | succ p =>
              have h1' : p < mt.length := Nat.lt_of_succ_lt_succ h1
              have h2' : p < vt.length := Nat.lt_of_succ_lt_succ h2
              simpa [List.getD_cons_succ] using ih vt p h1' h2'

theorem maskStep_length (req : Request) (ds : Dataset) (m : List Bool) (r : Role) :
    (maskStep req ds m r).length = min m.length (bandFor req ds r).vals.length := by
  simp [maskStep]

theorem maskFold_getD (req : Request) (ds : Dataset) :
    ∀ (roles : List Role) (m : List Bool),
      (∀ r ∈ roles, (bandFor req ds r).vals.length = m.length) →
      ∀ p, p < m.length →
        (roles.foldl (maskStep req ds) m).getD p false
          = (m.getD p false ||
             roles.any (fun r => decide ((bandFor req ds r).vals.getD p 0
               = sentinelOr (bandFor req ds r).nodataDeclared req.nodata))) := by
  intro roles
  induction roles with
  | nil => intro m h p hp; simp
  | cons r rs ih =>
      intro m h p hp
      have hr : (bandFor req ds r).vals.length = m.length := h r (List.mem_cons_self _ _)
      have hlen : (maskStep req ds m r).length = m.length := by
        rw [maskStep_length, hr, Nat.min_self]
      have hlens : ∀ r' ∈ rs, (bandFor req ds r').vals.length = (maskStep req ds m r).length := by
        intro r' hr'
        rw [hlen]
        exact h r' (List.mem_cons_of_mem _ hr')
      have hp' : p < (maskStep req ds m r).length := by rw [hlen]; exact hp
      rw [List.foldl_cons, ih (maskStep req ds m r) hlens p hp']
      have hstep : (maskStep req ds m r).getD p false
          = (m.getD p false || decide ((bandFor req ds r).vals.getD p 0
              = sentinelOr (bandFor req ds r).nodataDeclared req.nodata)) := by
        simp only [maskStep]
        exact zipOr_getD _ m _ p hp (by rw [hr]; exact hp)
      rw [hstep, List.any_cons, Bool.or_assoc]

theorem replicate_getD_false (n : Nat) :
    ∀ p : Nat, (List.replicate n false).getD p false = false := by
  induction n with
  | zero => intro p; cases p <;> rfl
  | succ n ih =>
      intro p
      cases p with
      | zero => rfl
      | succ p => simp [List.replicate, List.getD_cons_succ, ih p]

theorem aggMask_getD (req : Request) (ds : Dataset)
    (hlen : ∀ r : Role, (bandFor req ds r).vals.length = ds.npix)
    (p : Nat) (hp : p < ds.npix) :
    ((aggMask req ds).getD p false = true ↔
      ∃ r ∈ required_bands_all,
        (bandFor req ds r).vals.getD p 0
          = sentinelOr (bandFor req ds r).nodataDeclared req.nodata) := by
  unfold aggMask
  rw [maskFold_getD req ds required_bands_all (List.replicate ds.npix false)
      (fun r _ => by rw [List.length_replicate]; exact hlen r) p
      (by rw [List.length_replicate]; exact hp)]
  rw [replicate_getD_false]
  simp [List.any_eq_true]

theorem applyMaskArr_getD_of_mask :
    ∀ (a : List ℚ) (mask : List Bool) (nd : ℚ) (p : Nat),
      mask.getD p false = true → (applyMaskArr a mask nd).getD p nd = nd := by
  intro a
  induction a with
  | nil => intro mask nd p h; cases mask <;> cases p <;> rfl
  | cons v vt ih =>
      intro mask nd p h
      cases mask with
      | nil => cases p <;> rfl
      | cons mv mt =>
          cases p with
          | zero =>
              simp only [List.getD_cons_zero] at h
              simp [applyMaskArr, List.getD_cons_zero, h]
          | succ p =>
              simp only [List.getD_cons_succ] at h
              simpa [applyMaskArr, List.getD_cons_succ] using ih mt nd p h

/-- Claim C4: the band requirement is the union over ALL registered
transforms (it contains every role); for shape-consistent inputs the
aggregated mask is true at a pixel exactly when at least one required
band equals its input sentinel there; and on the success path every
requested transform's output band carries the output no-data value at
every masked pixel. -/
theorem claim_C4 (req : Request) (ds : Dataset)
    (hlen : ∀ r : Role, (bandFor req ds r).vals.length = ds.npix) :
    (Role.blue ∈ required_bands_all ∧ Role.green ∈ required_bands_all ∧
     Role.red ∈ required_bands_all ∧ Role.nir ∈ required_bands_all ∧
     Role.swir1 ∈ required_bands_all ∧ Role.swir2 ∈ required_bands_all) ∧
    (∀ p, p < ds.npix →
      ((aggMask req ds).getD p false = true ↔
        ∃ r ∈ required_bands_all,
          (bandFor req ds r).vals.getD p 0
            = sentinelOr (bandFor req ds r).nodataDeclared req.nodata)) ∧
    (∀ outs, create_transform req ds = Except.ok outs →
      ∀ pr ∈ outs, ∀ p, (aggMask req ds).getD p false = true →
        pr.2.getD p req.nodata = req.nodata) := by
  refine ⟨⟨by decide, by decide, by decide, by decide, by decide, by decide⟩, ?_, ?_⟩
  · intro p hp
    exact aggMask_getD req ds hlen p hp
  · intro outs hok pr hpr p hm
    unfold create_transform at hok
    split at hok
    · split at hok
      · exact absurd hok (by simp)
      · cases hc : computeTransforms req ds with
        | error e => rw [hc] at hok; simp [Except.map] at hok
        | ok l =>
            rw [hc] at hok
            simp only [Except.map] at hok
            injection hok with hout
            subst hout
            rcases List.mem_map.mp hpr with ⟨pr0, _, rfl⟩
            exact applyMaskArr_getD_of_mask pr0.2 (aggMask req ds) req.nodata p hm
    · exact absurd hok (by simp)

/-- Witness request for claim C4: the default role-index assignment and a
request for NDVI alone. -/
def reqC4 : Request := ⟨["ndvi"], 1, 1, -9999,
  fun r => match r with
  | Role.blue => 1
  | Role.green => 2
  | Role.red => 3
  | Role.nir => 4
  | Role.swir1 => 5
  | Role.swir2 => 6⟩

/-- Witness dataset for claim C4: a 2-pixel scene whose red band declares
no-data 7 and holds 7 at the first pixel. -/
def dsC4 : Dataset := ⟨fun i =>
  if i = 3 then ⟨Dtype.floatLike, some 7, [7, 3]⟩
  else ⟨Dtype.floatLike, none, [1, 2]⟩, 2⟩

/-- Witness for claim C4 at a concrete 2-pixel scene. -/
theorem claim_C4_witness :
    (∀ r : Role, (bandFor reqC4 dsC4 r).vals.length = dsC4.npix) ∧
    ((Role.blue ∈ required_bands_all ∧ Role.green ∈ required_bands_all ∧
      Role.red ∈ required_bands_all ∧ Role.nir ∈ required_bands_all ∧
      Role.swir1 ∈ required_bands_all ∧ Role.swir2 ∈ required_bands_all) ∧
     (∀ p, p < dsC4.npix →
       ((aggMask reqC4 dsC4).getD p false = true ↔
         ∃ r ∈ required_bands_all,
           (bandFor reqC4 dsC4 r).vals.getD p 0
             = sentinelOr (bandFor reqC4 dsC4 r).nodataDeclared reqC4.nodata)) ∧
     (∀ outs, create_transform reqC4 dsC4 = Except.ok outs →
       ∀ pr ∈ outs, ∀ p, (aggMask reqC4 dsC4).getD p false = true →
         pr.2.getD p reqC4.nodata = reqC4.nodata)) := by
  have hlen : ∀ r : Role, (bandFor reqC4 dsC4 r).vals.length = dsC4.npix := by
    intro r
    cases r <;> rfl
  exact ⟨hlen, claim_C4 reqC4 dsC4 hlen⟩
